import Mathlib

/-!
# HTTP-Wrapper: status classification and request dispatch

A shallow embedding of `service/status_code.go` and `service/wrapper.go`.

* Go `error` values are modelled by `GoError`: a message together with the
  error wrapped through the `%w` verb of `fmt.Errorf`, when there is one.
* Go `int` status codes are modelled by `Int`.
* `[]byte` results are `Option (List UInt8)`, `none` standing for the `nil` slice.
* The collaborators of the standard library (`url.Parse` inside `http.NewRequest`,
  `http.Client.Do`, the iteration order of `range` over a map, the key
  canonicalisation of `http.Header.Set`) are fields of `Env`.
* The observable effects of one call (request handed to the transport, status
  classification, body read, body close) are recorded in a trace of `Event`s.
-/

namespace HttpWrapper

/-! ## Errors and formatting -/

/-- A Go `error`: `leaf` is an error without a wrapped cause, `wrap` one built with `%w`. -/
inductive GoError where
  | leaf (msg : String)
  | wrap (msg : String) (inner : GoError)
deriving DecidableEq, Repr

/-- The method `Error()`. -/
def GoError.Error : GoError → String
  | .leaf m => m
  | .wrap m _ => m

/-- The method `Unwrap()`; a leaf error has nothing to unwrap. -/
def GoError.Unwrap : GoError → Option GoError
  | .leaf _ => none
  | .wrap _ e => some e

/-- The chain walked by `errors.Is`/`errors.As`: the error itself, then what it wraps, and so on. -/
def GoError.chain : GoError → List GoError
  | .leaf m => [.leaf m]
  | .wrap m e => .wrap m e :: e.chain

/-- The call `fmt.Errorf(pre + "%w", err)`: the message is `pre` followed by `err.Error()` and
the result unwraps to `err`. -/
def Errorf_w (pre : String) (err : GoError) : GoError :=
  .wrap (pre ++ err.Error) err

/-- Decimal digits of a natural number, most significant first; `fuel` bounds the recursion. -/
def natDigits : Nat → Nat → List Char
  | 0, _ => []
  | fuel + 1, n =>
    if n < 10 then [Nat.digitChar n] else natDigits fuel (n / 10) ++ [Nat.digitChar (n % 10)]

/-- The verb `%d` of `fmt` on an `int`: an optional minus sign, then the decimal digits. -/
def fmtD (c : Int) : String :=
  if c < 0 then String.mk ('-' :: natDigits (c.natAbs + 1) c.natAbs)
  else String.mk (natDigits (c.natAbs + 1) c.natAbs)

/-- Substring test on strings (the predicate behind `strings.Contains`). -/
def Contains (s sub : String) : Prop := sub.data <:+: s.data

instance (s sub : String) : Decidable (Contains s sub) := by
  unfold Contains; infer_instance

/-! ## `status_code.go` -/

/-- The part of `*http.Response` the wrapper looks at: the status code and the body stream.
The body stream is described by what `io.ReadAll` meets on it: the chunks successive reads
deliver, then end of file (`failure = none`) or a read error. -/
structure Response where
  StatusCode : Int
  chunks : List (List UInt8)
  failure : Option GoError
deriving DecidableEq, Repr

/-- The function `handleStatusCode`: `none` is the `nil` error. -/
def handleStatusCode (resp : Response) : Option GoError :=
  if resp.StatusCode = 200 ∨ resp.StatusCode = 201 ∨ resp.StatusCode = 204 then none
  else if resp.StatusCode = 400 then some (.leaf "client: bad request (400)")
  else if resp.StatusCode = 401 then some (.leaf "client: unauthorized (401)")
  else if resp.StatusCode = 403 then some (.leaf "client: forbidden (403)")
  else if resp.StatusCode = 404 then some (.leaf "client: not found (404)")
  else if resp.StatusCode = 429 then some (.leaf "client: too many requests (429)")
  else if resp.StatusCode = 503 then some (.leaf "client: service unavailable (503)")
  else some (.leaf ("client: unexpected status code: " ++ fmtD resp.StatusCode))

/-! ## `wrapper.go` -/

/-- The type `http.Header`, a `map[string][]string`, as an association list with unique keys. -/
abbrev Header := List (String × List String)

/-- The map index `h[k]`. -/
def Header.lookup : Header → String → Option (List String)
  | [], _ => none
  | (k', vs) :: t, k => if k' = k then some vs else Header.lookup t k

/-- The keys present in the map. -/
def Header.keys (h : Header) : List String := h.map Prod.fst

/-- The method `Header.Set(key, value)`: the key is canonicalised and the entry under the
canonical key is replaced by the single value. -/
def Header.Set (canon : String → String) (h : Header) (key value : String) : Header :=
  (canon key, [value]) :: h.filter (fun e => decide (e.1 ≠ canon key))

/-- The fields of `*http.Request` the wrapper sets: `Body = none` is the `nil` body. -/
structure Request where
  Method : String
  URL : String
  Header : Header
  Body : Option (List UInt8)
deriving DecidableEq, Repr

/-- The collaborators the wrapper delegates to. -/
structure Env where
  /-- The URL check of `http.NewRequest` (`url.Parse`): the error of a malformed URL. -/
  parseURL : String → Option GoError
  /-- The key normalisation `textproto.CanonicalMIMEHeaderKey` used by `Header.Set`. -/
  canon : String → String
  /-- The order in which the `n`-th `range` statement of a call visits the entries of the
  header map (Go leaves it unspecified). -/
  range : Nat → List (String × String) → List (String × String)
  /-- The injected transport, `httpClient.Do`. -/
  Do : Request → Except GoError Response

/-- The call `http.NewRequest(method, url, body)` for the four method constants the wrapper
uses (all valid methods): it fails exactly when the URL does not parse, with the parser's
error, and otherwise yields a request with an empty header set. -/
def NewRequest (env : Env) (method url : String) (body : Option (List UInt8)) :
    Except GoError Request :=
  match env.parseURL url with
  | some err => .error err
  | none => .ok { Method := method, URL := url, Header := [], Body := body }

/-- The loop `for key, value := range header { req.Header.Set(key, value) }`, as the `n`-th
`range` statement of the call. -/
def setHeaders (env : Env) (n : Nat) (req : Request) (header : List (String × String)) :
    Request :=
  (env.range n header).foldl
    (fun r kv => { r with Header := Header.Set env.canon r.Header kv.1 kv.2 }) req

/-- The call `io.ReadAll(resp.Body)`: the bytes read so far and the read error, if any. -/
def ReadAll (resp : Response) : List UInt8 × Option GoError :=
  (resp.chunks.flatten, resp.failure)

/-- What a call does to its collaborators, in order. -/
inductive Event where
  /-- The request was handed to `httpClient.Do`. -/
  | send (req : Request)
  /-- The function `handleStatusCode` was called on a response with this status. -/
  | classify (code : Int)
  /-- The body was read with `io.ReadAll`. -/
  | readAll
  /-- The call `resp.Body.Close()` ran. -/
  | close
deriving DecidableEq, Repr

/-- The result of a verb method: the bytes, the error, and the effects performed. -/
structure Outcome where
  bytes : Option (List UInt8)
  err : Option GoError
  trace : List Event
deriving DecidableEq, Repr

/-- The statement `defer resp.Body.Close()`: the close runs when the function returns,
whatever the return statement. -/
def deferClose (rest : Outcome) : Outcome :=
  { rest with trace := rest.trace ++ [Event.close] }

def buildGetRequest (env : Env) (url : String) (header : List (String × String)) :
    Except GoError Request :=
  match NewRequest env "GET" url none with
  | .error err => .error (Errorf_w "client: could not create GET request: " err)
  | .ok req => .ok (setHeaders env 0 req header)

def Get (env : Env) (url : String) (header : List (String × String)) : Outcome :=
  match buildGetRequest env url header with
  | .error err => ⟨none, some (Errorf_w "client: failed to create GET request: " err), []⟩
  | .ok req =>
    let req := setHeaders env 1 req header
    match env.Do req with
    | .error err =>
      ⟨none, some (Errorf_w "client: failed to perform GET request: " err), [.send req]⟩
    | .ok resp =>
      let rest : Outcome := deferClose <|
        match handleStatusCode resp with
        | some err => ⟨none, some err, [.classify resp.StatusCode]⟩
        | none =>
          match ReadAll resp with
          | (_, some err) =>
            ⟨none, some (Errorf_w "client: failed to read response body: " err),
              [.classify resp.StatusCode, .readAll]⟩
          | (respBody, none) => ⟨some respBody, none, [.classify resp.StatusCode, .readAll]⟩
      { rest with trace := .send req :: rest.trace }

def buildPostRequest (env : Env) (url : String) (body : List UInt8)
    (header : List (String × String)) : Except GoError Request :=
  match NewRequest env "POST" url (some body) with
  | .error err => .error (Errorf_w "client: could not create POST request: " err)
  | .ok req => .ok (setHeaders env 0 req header)

def Post (env : Env) (url : String) (body : List UInt8) (header : List (String × String)) :
    Outcome :=
  match buildPostRequest env url body header with
  | .error err => ⟨none, some (Errorf_w "client: could not create request: " err), []⟩
  | .ok req =>
    let req := setHeaders env 1 req header
    match env.Do req with
    | .error err =>
      ⟨none, some (Errorf_w "client: error making http request: " err), [.send req]⟩
    | .ok resp =>
      let rest : Outcome := deferClose <|
        match handleStatusCode resp with
        | some err => ⟨none, some err, [.classify resp.StatusCode]⟩
        | none =>
          match ReadAll resp with
          | (_, some err) =>
            ⟨none, some (Errorf_w "client: could not read response body: " err),
              [.classify resp.StatusCode, .readAll]⟩
          | (bodyResp, none) => ⟨some bodyResp, none, [.classify resp.StatusCode, .readAll]⟩
      { rest with trace := .send req :: rest.trace }

def buildPutRequest (env : Env) (url : String) (body : List UInt8)
    (header : List (String × String)) : Except GoError Request :=
  match NewRequest env "PUT" url (some body) with
  | .error err => .error (Errorf_w "client: could not create PUT request: " err)
  | .ok req => .ok (setHeaders env 0 req header)

def Put (env : Env) (url : String) (body : List UInt8) (header : List (String × String)) :
    Outcome :=
  match buildPutRequest env url body header with
  | .error err => ⟨none, some (Errorf_w "failed to create PUT request: " err), []⟩
  | .ok req =>
    let req := setHeaders env 1 req header
    match env.Do req with
    | .error err => ⟨none, some (Errorf_w "failed to send PUT request: " err), [.send req]⟩
    | .ok resp =>
      let rest : Outcome := deferClose <|
        match handleStatusCode resp with
        | some err => ⟨none, some err, [.classify resp.StatusCode]⟩
        | none =>
          match ReadAll resp with
          | (_, some err) =>
            ⟨none, some (Errorf_w "client: could not read response body: " err),
              [.classify resp.StatusCode, .readAll]⟩
          | (bodyResp, none) => ⟨some bodyResp, none, [.classify resp.StatusCode, .readAll]⟩
      { rest with trace := .send req :: rest.trace }

def buildDeleteRequest (env : Env) (url : String) (header : List (String × String)) :
    Except GoError Request :=
  match NewRequest env "DELETE" url none with
  | .error err => .error (Errorf_w "client: could not create DELETE request: " err)
  | .ok req => .ok (setHeaders env 0 req header)

def Delete (env : Env) (url : String) (header : List (String × String)) : Outcome :=
  match buildDeleteRequest env url header with
  | .error err => ⟨none, some (Errorf_w "failed to create request: " err), []⟩
  | .ok req =>
    let req := setHeaders env 1 req header
    match env.Do req with
    | .error err => ⟨none, some (Errorf_w "failed to send DELETE request: " err), [.send req]⟩
    | .ok resp =>
      let rest : Outcome := deferClose <|
        match handleStatusCode resp with
        | some err => ⟨none, some err, [.classify resp.StatusCode]⟩
        | none =>
          match ReadAll resp with
          | (_, some err) =>
            ⟨none, some (Errorf_w "client: could not read response body: " err),
              [.classify resp.StatusCode, .readAll]⟩
          | (bodyResp, none) => ⟨some bodyResp, none, [.classify resp.StatusCode, .readAll]⟩
      { rest with trace := .send req :: rest.trace }

/-! ## The four operations of `IHttpWrapper`, addressed uniformly -/

/-- The four methods of the interface `IHttpWrapper`. -/
inductive Verb where
  | get | post | put | delete
deriving DecidableEq, Repr

/-- The HTTP method constant each operation passes to `http.NewRequest`. -/
def Verb.method : Verb → String
  | .get => "GET"
  | .post => "POST"
  | .put => "PUT"
  | .delete => "DELETE"

/-- A call of one of the four operations; `body` is ignored by `Get` and `Delete`, which
take none. -/
def call (env : Env) (v : Verb) (url : String) (body : List UInt8)
    (header : List (String × String)) : Outcome :=
  match v with
  | .get => Get env url header
  | .post => Post env url body header
  | .put => Put env url body header
  | .delete => Delete env url header

/-- The `build*Request` helper of each operation. -/
def buildRequest (env : Env) (v : Verb) (url : String) (body : List UInt8)
    (header : List (String × String)) : Except GoError Request :=
  match v with
  | .get => buildGetRequest env url header
  | .post => buildPostRequest env url body header
  | .put => buildPutRequest env url body header
  | .delete => buildDeleteRequest env url header

/-- The request the operation hands to the transport when construction succeeds: the
result of `build*Request` followed by the second header pass of the verb method. -/
def builtRequest (env : Env) (v : Verb) (url : String) (body : List UInt8)
    (header : List (String × String)) : Except GoError Request :=
  match buildRequest env v url body header with
  | .error err => .error err
  | .ok req => .ok (setHeaders env 1 req header)

/-- The format string of the error each verb method returns when `build*Request` fails,
up to the `%w` verb. -/
def Verb.createMsg : Verb → String
  | .get => "client: failed to create GET request: "
  | .post => "client: could not create request: "
  | .put => "failed to create PUT request: "
  | .delete => "failed to create request: "

/-- The format string of the error each `build*Request` returns when `http.NewRequest`
fails, up to the `%w` verb. -/
def Verb.buildMsg : Verb → String
  | .get => "client: could not create GET request: "
  | .post => "client: could not create POST request: "
  | .put => "client: could not create PUT request: "
  | .delete => "client: could not create DELETE request: "

/-- The format string of the error each verb method returns when `httpClient.Do` fails,
up to the `%w` verb. -/
def Verb.sendMsg : Verb → String
  | .get => "client: failed to perform GET request: "
  | .post => "client: error making http request: "
  | .put => "failed to send PUT request: "
  | .delete => "failed to send DELETE request: "

/-- The format string of the error each verb method returns when `io.ReadAll` fails,
up to the `%w` verb. -/
def Verb.readMsg : Verb → String
  | .get => "client: failed to read response body: "
  | .post => "client: could not read response body: "
  | .put => "client: could not read response body: "
  | .delete => "client: could not read response body: "

/-- The common shape of the four verb methods, parameterised by the verb; `call` is shown
equal to it below, so that the four methods can be reasoned about at once. -/
def perform (env : Env) (v : Verb) (url : String) (body : List UInt8)
    (header : List (String × String)) : Outcome :=
  match buildRequest env v url body header with
  | .error err => ⟨none, some (Errorf_w v.createMsg err), []⟩
  | .ok req =>
    match env.Do (setHeaders env 1 req header) with
    | .error err =>
      ⟨none, some (Errorf_w v.sendMsg err), [.send (setHeaders env 1 req header)]⟩
    | .ok resp =>
      match handleStatusCode resp with
      | some err =>
        ⟨none, some err,
          [.send (setHeaders env 1 req header), .classify resp.StatusCode, .close]⟩
      | none =>
        match resp.failure with
        | some err =>
          ⟨none, some (Errorf_w v.readMsg err),
            [.send (setHeaders env 1 req header), .classify resp.StatusCode, .readAll,
              .close]⟩
        | none =>
          ⟨some resp.chunks.flatten, none,
            [.send (setHeaders env 1 req header), .classify resp.StatusCode, .readAll,
              .close]⟩

/-- Number of `Close` calls recorded in a trace. -/
def closeCount (t : List Event) : Nat := t.count Event.close

/-- The requests handed to the transport in a trace. -/
def sent : List Event → List Request
  | [] => []
  | .send r :: t => r :: sent t
  | _ :: t => sent t

/-- Number of invocations of `handleStatusCode` recorded in a trace. -/
def classifyCount : List Event → Nat
  | [] => 0
  | .classify _ :: t => classifyCount t + 1
  | _ :: t => classifyCount t

/-- Number of `io.ReadAll` calls recorded in a trace. -/
def readCount (t : List Event) : Nat := t.count Event.readAll

/-! ## The standard library key normalisation -/

/-- The table `isTokenTable` of `net/textproto`: the bytes allowed in a header field name. -/
def validHeaderFieldByte (c : Char) : Bool :=
  c.isAlphanum || decide (c.toNat ∈ [33, 35, 36, 37, 38, 39, 42, 43, 45, 46, 94, 95, 96, 124, 126])

/-- The rewriting loop of `canonicalMIMEHeaderKey`: upper case at the start and after each
dash, lower case elsewhere. -/
def canonLoop : Bool → List Char → List Char
  | _, [] => []
  | upper, c :: cs =>
    let c' := if upper && c.isLower then c.toUpper
              else if !upper && c.isUpper then c.toLower else c
    c' :: canonLoop (c' == '-') cs

/-- The function `textproto.CanonicalMIMEHeaderKey` of the Go standard library: a name made
of valid header field bytes is rewritten to canonical case, any other string is returned
unchanged. -/
def CanonicalMIMEHeaderKey (s : String) : String :=
  if s.data.all validHeaderFieldByte then String.mk (canonLoop true s.data) else s

/-- The failure rows of the status table of the specification: code and category name. -/
def categoryTable : List (Int × String) :=
  [(400, "bad request"), (401, "unauthorized"), (403, "forbidden"), (404, "not found"),
   (429, "too many requests"), (503, "service unavailable")]

/-- The status codes the classifier lists explicitly. -/
def listedCodes : List Int := [200, 201, 204, 400, 401, 403, 404, 429, 503]

/-- Reads a run of decimal digits back as a number. -/
def decodeNat (l : List Char) : Nat :=
  l.foldl (fun a ch => a * 10 + (ch.toNat - 48)) 0

/-- The message of the error `handleStatusCode` returns for a status code (empty when the
error is nil); the body of the response plays no role. -/
def statusMessage (c : Int) : String :=
  match handleStatusCode ⟨c, [], none⟩ with
  | some e => e.Error
  | none => ""

/-- A transport double for the end-to-end scenarios: the URL selects the scenario, the
standard library canonicalisation is used and maps are visited in list order. -/
def demoEnv : Env where
  parseURL := fun u =>
    if u = "::bad" then some (.leaf "parse ::bad: missing protocol scheme") else none
  canon := CanonicalMIMEHeaderKey
  range := fun _ l => l
  Do := fun req =>
    if req.URL = "http://h/ok" then .ok ⟨200, [[111], [107]], none⟩
    else if req.URL = "http://h/missing" then .ok ⟨404, [[120]], none⟩
    else if req.URL = "http://h/busy" then .ok ⟨429, [], none⟩
    else if req.URL = "http://h/cut" then .ok ⟨200, [[111]], some (.leaf "unexpected EOF")⟩
    else .error (.leaf "dial tcp: connection refused")

/-- The header set `h` reproduces the supplied mapping exactly: every supplied name is
present with its supplied value as the single value, and no other name is present. -/
def Reproduces (h : Header) (header : List (String × String)) : Prop :=
  (∀ kv ∈ header, Header.lookup h kv.1 = some [kv.2]) ∧
  (∀ k ∈ Header.keys h, k ∈ header.map Prod.fst)

instance (h : Header) (header : List (String × String)) : Decidable (Reproduces h header) := by
  unfold Reproduces; infer_instance

/-- The property of the outgoing request of a `Get` or `Delete` call with respect to an
expected header mapping: the request handed to the transport is the built request after
the second header pass, it has no body, its header set reproduces the expected mapping
after the first pass and after the second, and the second pass changes no entry. -/
def RequestCarries (env : Env) (v : Verb) (url : String)
    (header expected : List (String × String)) : Prop :=
  ∀ req1, buildRequest env v url [] header = .ok req1 →
    sent (call env v url [] header).trace = [setHeaders env 1 req1 header] ∧
    (setHeaders env 1 req1 header).Body = none ∧
    Reproduces req1.Header expected ∧
    Reproduces (setHeaders env 1 req1 header).Header expected ∧
    ∀ k, Header.lookup (setHeaders env 1 req1 header).Header k = Header.lookup req1.Header k

/-- The outgoing request reproduces the supplied mapping itself. -/
def RequestFaithful (env : Env) (v : Verb) (url : String)
    (header : List (String × String)) : Prop :=
  RequestCarries env v url header header

/-- The supplied mapping with every name replaced by its canonical form. -/
def canonHeader (canon : String → String) (header : List (String × String)) :
    List (String × String) :=
  header.map (fun kv => (canon kv.1, kv.2))

/-- The effect of one header loop on the header set alone. -/
def setAll (canon : String → String) (h : Header) (es : List (String × String)) : Header :=
  es.foldl (fun h kv => Header.Set canon h kv.1 kv.2) h

/-! ## Lemmas on decimal rendering -/

theorem digitChar_toNat (d : Nat) (h : d < 10) : (Nat.digitChar d).toNat - 48 = d := by
  interval_cases d <;> rfl

theorem digitChar_ne_minus (d : Nat) (h : d < 10) : Nat.digitChar d ≠ '-' := by
  interval_cases d <;> decide

theorem decodeNat_natDigits (fuel : Nat) : ∀ n, n < fuel → decodeNat (natDigits fuel n) = n := by
  induction fuel with
  | zero => intro n h; omega
  | succ f ih =>
    intro n h
    unfold natDigits
    split
    · rename_i h10
      simp [decodeNat, digitChar_toNat n h10]
    · rename_i h10
      have h1 : n / 10 < f := by omega
      have h2 := ih (n / 10) h1
      unfold decodeNat at h2 ⊢
      rw [List.foldl_append, h2]
      simp [digitChar_toNat (n % 10) (Nat.mod_lt _ (by decide))]
      omega

theorem natDigits_ne_minus (fuel : Nat) : ∀ n, ∀ ch ∈ natDigits fuel n, ch ≠ '-' := by
  induction fuel with
  | zero => intro n ch h; simp [natDigits] at h
  | succ f ih =>
    intro n ch h
    unfold natDigits at h
    split at h
    · rename_i h10
      simp at h
      rw [h]; exact digitChar_ne_minus n h10
    · simp at h
      rcases h with h | h
      · exact ih _ _ h
      · rw [h]; exact digitChar_ne_minus _ (Nat.mod_lt _ (by decide))

theorem natDigits_inj (a b : Nat) (h : natDigits (a + 1) a = natDigits (b + 1) b) : a = b := by
  have ha := decodeNat_natDigits (a + 1) a (by omega)
  have hb := decodeNat_natDigits (b + 1) b (by omega)
  rw [h] at ha
  omega

theorem fmtD_injective (c d : Int) (h : fmtD c = fmtD d) : c = d := by
  unfold fmtD at h
  split at h <;> split at h <;> replace h := congrArg String.data h <;> simp only at h
  · have := natDigits_inj _ _ (List.cons.inj h).2
    omega
  · exfalso
    have hm : ('-' : Char) ∈ natDigits (d.natAbs + 1) d.natAbs := by rw [← h]; simp
    exact natDigits_ne_minus _ _ _ hm rfl
  · exfalso
    have hm : ('-' : Char) ∈ natDigits (c.natAbs + 1) c.natAbs := by rw [h]; simp
    exact natDigits_ne_minus _ _ _ hm rfl
  · have := natDigits_inj _ _ h
    omega

theorem append_left_cancel_str (p a b : String) (h : p ++ a = p ++ b) : a = b := by
  have h1 : (p ++ a).data = (p ++ b).data := by rw [h]
  simp only [String.data_append] at h1
  exact String.ext (List.append_cancel_left h1)

theorem contains_append_right (p a : String) : Contains (p ++ a) a := by
  unfold Contains
  rw [String.data_append]
  exact (List.suffix_append _ _).isInfix

/-! ## The status classifier -/

/-- C1: `handleStatusCode` is a total function of the status code; it returns the nil error
exactly for the codes 200, 201 and 204, and a non-nil error for every other integer. -/
theorem handleStatusCode_success_iff (resp : Response) :
    (handleStatusCode resp = none ↔
      (resp.StatusCode = 200 ∨ resp.StatusCode = 201 ∨ resp.StatusCode = 204)) ∧
    ((∃ e, handleStatusCode resp = some e) ↔
      ¬ (resp.StatusCode = 200 ∨ resp.StatusCode = 201 ∨ resp.StatusCode = 204)) := by
  unfold handleStatusCode
  constructor
  · constructor
    · intro h
      by_contra hc
      rw [if_neg hc] at h
      repeat (first | split at h | simp at h)
    · intro h; rw [if_pos h]
  · constructor
    · rintro ⟨e, h⟩ hc
      rw [if_pos hc] at h
      simp at h
    · intro hc
      rw [if_neg hc]
      repeat (first | split | exact ⟨_, rfl⟩)

theorem handleStatusCode_eq (resp : Response) :
    handleStatusCode resp = handleStatusCode ⟨resp.StatusCode, [], none⟩ := rfl

set_option maxRecDepth 100000 in
theorem categoryTable_messages :
    ∀ p ∈ categoryTable,
      handleStatusCode ⟨p.1, [], none⟩ = some (.leaf (statusMessage p.1)) ∧
      Contains (statusMessage p.1) p.2 ∧
      Contains (statusMessage p.1) (fmtD p.1) ∧
      ¬ Contains (statusMessage p.1) "unexpected status code" ∧
      ∀ q ∈ categoryTable, q ≠ p →
        ¬ Contains (statusMessage p.1) q.2 ∧ statusMessage q.1 ≠ statusMessage p.1 := by
  decide

/-- C2: for each of the six enumerated failure codes the returned error is the one of its
table row: the message contains the category name and the decimal code, contains none of
the other five category names nor "unexpected status code", and differs from the message
returned for each of the other five codes. -/
theorem handleStatusCode_category (resp : Response) (p : Int × String)
    (hp : p ∈ categoryTable) (hc : resp.StatusCode = p.1) :
    ∃ e, handleStatusCode resp = some e ∧
      Contains e.Error p.2 ∧ Contains e.Error (fmtD p.1) ∧
      ¬ Contains e.Error "unexpected status code" ∧
      (∀ q ∈ categoryTable, q ≠ p → ¬ Contains e.Error q.2) ∧
      (∀ q ∈ categoryTable, q ≠ p → ∀ (resp' : Response) (e' : GoError),
        resp'.StatusCode = q.1 → handleStatusCode resp' = some e' → e'.Error ≠ e.Error) := by
  obtain ⟨h1, h2, h3, h4, h5⟩ := categoryTable_messages p hp
  refine ⟨.leaf (statusMessage p.1), ?_, h2, h3, h4, fun q hq hne => (h5 q hq hne).1, ?_⟩
  · rw [handleStatusCode_eq, hc, h1]
  · intro q hq hne resp' e' hc' he'
    obtain ⟨g1, -⟩ := categoryTable_messages q hq
    rw [handleStatusCode_eq, hc', g1] at he'
    cases he'
    exact (h5 q hq hne).2

theorem handleStatusCode_category_witness :
    ∃ e, handleStatusCode ⟨429, [[1, 2]], none⟩ = some e ∧
      Contains e.Error "too many requests" ∧ Contains e.Error (fmtD 429) ∧
      ¬ Contains e.Error "unexpected status code" ∧
      (∀ q ∈ categoryTable, q ≠ (429, "too many requests") → ¬ Contains e.Error q.2) ∧
      (∀ q ∈ categoryTable, q ≠ (429, "too many requests") →
        ∀ (resp' : Response) (e' : GoError),
        resp'.StatusCode = q.1 → handleStatusCode resp' = some e' → e'.Error ≠ e.Error) :=
  handleStatusCode_category ⟨429, [[1, 2]], none⟩ (429, "too many requests") (by decide) rfl

/-- C3: for a status code outside the table the error message is exactly
"client: unexpected status code: " followed by the decimal code; it therefore contains
the code, and two different unlisted codes give different messages. -/
theorem handleStatusCode_unlisted (resp : Response) (h : resp.StatusCode ∉ listedCodes) :
    handleStatusCode resp =
      some (.leaf ("client: unexpected status code: " ++ fmtD resp.StatusCode)) ∧
    Contains ("client: unexpected status code: " ++ fmtD resp.StatusCode)
      (fmtD resp.StatusCode) ∧
    ∀ (resp' : Response) (e e' : GoError), resp'.StatusCode ∉ listedCodes →
      resp'.StatusCode ≠ resp.StatusCode →
      handleStatusCode resp = some e → handleStatusCode resp' = some e' →
      e.Error ≠ e'.Error := by
  have key : ∀ r : Response, r.StatusCode ∉ listedCodes →
      handleStatusCode r =
        some (.leaf ("client: unexpected status code: " ++ fmtD r.StatusCode)) := by
    intro r hr
    simp only [listedCodes, List.mem_cons, List.mem_singleton, List.not_mem_nil, or_false,
      not_or] at hr
    obtain ⟨a1, a2, a3, a4, a5, a6, a7, a8, a9⟩ := hr
    unfold handleStatusCode
    rw [if_neg (by simp [a1, a2, a3]), if_neg a4, if_neg a5, if_neg a6, if_neg a7,
      if_neg a8, if_neg a9]
  refine ⟨key resp h, contains_append_right _ _, ?_⟩
  intro resp' e e' h' hne he he'
  rw [key resp h] at he
  rw [key resp' h'] at he'
  cases he
  cases he'
  intro heq
  exact hne (fmtD_injective _ _ (append_left_cancel_str _ _ _ heq)).symm

theorem handleStatusCode_unlisted_witness :
    (301 : Int) ∉ listedCodes ∧
    handleStatusCode ⟨301, [], none⟩ = some (.leaf "client: unexpected status code: 301") ∧
    handleStatusCode ⟨-1, [], none⟩ = some (.leaf "client: unexpected status code: -1") ∧
    handleStatusCode ⟨0, [], none⟩ = some (.leaf "client: unexpected status code: 0") :=
  ⟨by decide, (handleStatusCode_unlisted ⟨301, [], none⟩ (by decide)).1,
    (handleStatusCode_unlisted ⟨-1, [], none⟩ (by decide)).1,
    (handleStatusCode_unlisted ⟨0, [], none⟩ (by decide)).1⟩

/-! ## The request dispatcher -/

theorem call_eq_perform (env : Env) (v : Verb) (url : String) (body : List UInt8)
    (header : List (String × String)) :
    call env v url body header = perform env v url body header := by
  cases v <;>
  · simp only [call, perform, Get, Post, Put, Delete, buildRequest, Verb.createMsg,
      Verb.sendMsg, Verb.readMsg, ReadAll, deferClose]
    split
    · rfl
    · split
      · rfl
      · split
        · rfl
        · split <;> simp_all

theorem builtRequest_ok (env : Env) (v : Verb) (url : String) (body : List UInt8)
    (header : List (String × String)) (req : Request)
    (h : builtRequest env v url body header = .ok req) :
    ∃ req1, buildRequest env v url body header = .ok req1 ∧
      req = setHeaders env 1 req1 header := by
  unfold builtRequest at h
  split at h
  · cases h
  · rename_i req1 h1
    cases h
    exact ⟨req1, h1, rfl⟩

theorem builtRequest_error (env : Env) (v : Verb) (url : String) (body : List UInt8)
    (header : List (String × String)) (c : GoError)
    (h : builtRequest env v url body header = .error c) :
    buildRequest env v url body header = .error c := by
  unfold builtRequest at h
  split at h
  · rename_i err h1
    cases h
    exact h1
  · cases h

theorem perform_ok (env : Env) (v : Verb) (url : String) (body : List UInt8)
    (header : List (String × String)) (req : Request) (resp : Response)
    (hreq : builtRequest env v url body header = .ok req) (hdo : env.Do req = .ok resp) :
    perform env v url body header =
      match handleStatusCode resp with
      | some err => ⟨none, some err, [.send req, .classify resp.StatusCode, .close]⟩
      | none =>
        match resp.failure with
        | some err =>
          ⟨none, some (Errorf_w v.readMsg err),
            [.send req, .classify resp.StatusCode, .readAll, .close]⟩
        | none =>
          ⟨some resp.chunks.flatten, none,
            [.send req, .classify resp.StatusCode, .readAll, .close]⟩ := by
  obtain ⟨req1, h1, rfl⟩ := builtRequest_ok env v url body header req hreq
  unfold perform
  rw [h1]
  simp only [hdo]

theorem perform_do_error (env : Env) (v : Verb) (url : String) (body : List UInt8)
    (header : List (String × String)) (req : Request) (t : GoError)
    (hreq : builtRequest env v url body header = .ok req) (hdo : env.Do req = .error t) :
    perform env v url body header = ⟨none, some (Errorf_w v.sendMsg t), [.send req]⟩ := by
  obtain ⟨req1, h1, rfl⟩ := builtRequest_ok env v url body header req hreq
  unfold perform
  rw [h1]
  simp only [hdo]

theorem perform_build_error (env : Env) (v : Verb) (url : String) (body : List UInt8)
    (header : List (String × String)) (c : GoError)
    (hreq : buildRequest env v url body header = .error c) :
    perform env v url body header = ⟨none, some (Errorf_w v.createMsg c), []⟩ := by
  unfold perform
  rw [hreq]

theorem buildRequest_error (env : Env) (v : Verb) (url : String) (body : List UInt8)
    (header : List (String × String)) (c : GoError)
    (h : buildRequest env v url body header = .error c) :
    ∃ c0, env.parseURL url = some c0 ∧ c = Errorf_w v.buildMsg c0 := by
  cases v <;>
  · simp only [buildRequest, buildGetRequest, buildPostRequest, buildPutRequest,
      buildDeleteRequest, NewRequest] at h
    cases hp : env.parseURL url with
    | none => rw [hp] at h; cases h
    | some c0 =>
      rw [hp] at h
      cases h
      exact ⟨c0, rfl, rfl⟩

theorem success_handleStatusCode (resp : Response)
    (h : resp.StatusCode = 200 ∨ resp.StatusCode = 201 ∨ resp.StatusCode = 204) :
    handleStatusCode resp = none := by
  unfold handleStatusCode
  rw [if_pos h]

theorem failure_handleStatusCode (resp : Response)
    (h : ¬ (resp.StatusCode = 200 ∨ resp.StatusCode = 201 ∨ resp.StatusCode = 204)) :
    ∃ e, handleStatusCode resp = some e := by
  unfold handleStatusCode
  rw [if_neg h]
  repeat (first | split | exact ⟨_, rfl⟩)

/-- C4: success path. When request construction succeeds, the transport answers with a
status in 200, 201, 204 and the body drains without error to `b`, each of the four
operations returns exactly `b` and no error. -/
theorem call_success (env : Env) (v : Verb) (url : String) (body : List UInt8)
    (header : List (String × String)) (req : Request) (resp : Response) (b : List UInt8)
    (hreq : builtRequest env v url body header = .ok req)
    (hdo : env.Do req = .ok resp)
    (hst : resp.StatusCode = 200 ∨ resp.StatusCode = 201 ∨ resp.StatusCode = 204)
    (hread : ReadAll resp = (b, none)) :
    (call env v url body header).bytes = some b ∧ (call env v url body header).err = none := by
  rw [call_eq_perform, perform_ok env v url body header req resp hreq hdo,
    success_handleStatusCode resp hst]
  simp only [ReadAll, Prod.mk.injEq] at hread
  obtain ⟨hb, hf⟩ := hread
  simp only [hf, hb, and_self]

theorem call_success_witness :
    (call demoEnv .get "http://h/ok" [] []).bytes = some [111, 107] ∧
    (call demoEnv .get "http://h/ok" [] []).err = none :=
  call_success demoEnv .get "http://h/ok" [] []
    ⟨"GET", "http://h/ok", [], none⟩ ⟨200, [[111], [107]], none⟩ [111, 107]
    rfl rfl (by decide) rfl

/-- C5: classification-failure path. When the transport answers with a status outside
200, 201, 204, each of the four operations returns nil bytes and exactly the error of
`handleStatusCode` for that response, without reading the body, whatever it holds. -/
theorem call_classification_failure (env : Env) (v : Verb) (url : String)
    (body : List UInt8) (header : List (String × String)) (req : Request) (resp : Response)
    (hreq : builtRequest env v url body header = .ok req)
    (hdo : env.Do req = .ok resp)
    (hst : ¬ (resp.StatusCode = 200 ∨ resp.StatusCode = 201 ∨ resp.StatusCode = 204)) :
    ∃ e, handleStatusCode resp = some e ∧
      (call env v url body header).bytes = none ∧
      (call env v url body header).err = some e ∧
      readCount (call env v url body header).trace = 0 := by
  obtain ⟨e, he⟩ := failure_handleStatusCode resp hst
  refine ⟨e, he, ?_⟩
  rw [call_eq_perform, perform_ok env v url body header req resp hreq hdo, he]
  simp [readCount]

theorem call_classification_failure_witness :
    (∃ e, handleStatusCode ⟨404, [[120]], none⟩ = some e ∧
      (call demoEnv .get "http://h/missing" [] []).bytes = none ∧
      (call demoEnv .get "http://h/missing" [] []).err = some e ∧
      readCount (call demoEnv .get "http://h/missing" [] []).trace = 0) ∧
    (∃ e, handleStatusCode ⟨429, [], none⟩ = some e ∧
      (call demoEnv .post "http://h/busy" [1] []).bytes = none ∧
      (call demoEnv .post "http://h/busy" [1] []).err = some e ∧
      readCount (call demoEnv .post "http://h/busy" [1] []).trace = 0) ∧
    Contains (statusMessage 404) "not found" ∧ Contains (statusMessage 404) "404" ∧
    Contains (statusMessage 429) "too many requests" :=
  ⟨call_classification_failure demoEnv .get "http://h/missing" [] []
      ⟨"GET", "http://h/missing", [], none⟩ ⟨404, [[120]], none⟩ rfl rfl (by decide),
    call_classification_failure demoEnv .post "http://h/busy" [1] []
      ⟨"POST", "http://h/busy", [], some [1]⟩ ⟨429, [], none⟩ rfl rfl (by decide),
    by decide, by decide, by decide⟩

/-- C6: transport-failure path. When `httpClient.Do` fails with `t`, each of the four
operations returns nil bytes and an error that unwraps to `t` and whose message ends with
the message of `t`; the classifier is not invoked and the body is neither read nor closed. -/
theorem call_transport_failure (env : Env) (v : Verb) (url : String)
    (body : List UInt8) (header : List (String × String)) (req : Request) (t : GoError)
    (hreq : builtRequest env v url body header = .ok req)
    (hdo : env.Do req = .error t) :
    ∃ e, (call env v url body header).bytes = none ∧
      (call env v url body header).err = some e ∧
      e.Unwrap = some t ∧ t.Error.data <:+ e.Error.data ∧
      classifyCount (call env v url body header).trace = 0 ∧
      readCount (call env v url body header).trace = 0 ∧
      closeCount (call env v url body header).trace = 0 := by
  refine ⟨Errorf_w v.sendMsg t, ?_⟩
  rw [call_eq_perform, perform_do_error env v url body header req t hreq hdo]
  refine ⟨rfl, rfl, rfl, ?_, ?_, ?_, ?_⟩
  · simp only [Errorf_w, GoError.Error, String.data_append]
    exact List.suffix_append _ _
  · simp [classifyCount]
  · simp [readCount]
  · simp [closeCount]

theorem call_transport_failure_witness :
    ∃ e, (call demoEnv .put "http://h/down" [1, 2] []).bytes = none ∧
      (call demoEnv .put "http://h/down" [1, 2] []).err = some e ∧
      e.Unwrap = some (.leaf "dial tcp: connection refused") ∧
      (GoError.leaf "dial tcp: connection refused").Error.data <:+ e.Error.data ∧
      classifyCount (call demoEnv .put "http://h/down" [1, 2] []).trace = 0 ∧
      readCount (call demoEnv .put "http://h/down" [1, 2] []).trace = 0 ∧
      closeCount (call demoEnv .put "http://h/down" [1, 2] []).trace = 0 :=
  call_transport_failure demoEnv .put "http://h/down" [1, 2] []
    ⟨"PUT", "http://h/down", [], some [1, 2]⟩ (.leaf "dial tcp: connection refused") rfl rfl

theorem take_append_lit (p x : String) (n : Nat) (h : n ≤ p.data.length) :
    (p ++ x).data.take n = p.data.take n := by
  rw [String.data_append]
  exact List.take_append_of_le_length h

theorem append_ne_of_take (p q x y : String) (n : Nat) (hp : n ≤ p.data.length)
    (hq : n ≤ q.data.length) (hne : p.data.take n ≠ q.data.take n) : p ++ x ≠ q ++ y := by
  intro h
  apply hne
  rw [← take_append_lit p x n hp, ← take_append_lit q y n hq, h]

theorem readMsg_take (v : Verb) (x : String) :
    (v.readMsg ++ x).data.take 10 = "client: fa".data ∨
    (v.readMsg ++ x).data.take 10 = "client: co".data := by
  cases v
  · left; rw [take_append_lit _ _ _ (by decide)]; decide
  all_goals (right; rw [take_append_lit _ _ _ (by decide)]; decide)

theorem handleStatusCode_range (resp : Response) (e : GoError)
    (h : handleStatusCode resp = some e) :
    e ∈ [GoError.leaf "client: bad request (400)", .leaf "client: unauthorized (401)",
      .leaf "client: forbidden (403)", .leaf "client: not found (404)",
      .leaf "client: too many requests (429)", .leaf "client: service unavailable (503)"] ∨
    e = .leaf ("client: unexpected status code: " ++ fmtD resp.StatusCode) := by
  unfold handleStatusCode at h
  split_ifs at h <;> simp_all

theorem statusError_take (resp : Response) (e : GoError)
    (h : handleStatusCode resp = some e) :
    e.Error.data.take 10 ≠ "client: fa".data ∧ e.Error.data.take 10 ≠ "client: co".data := by
  rcases handleStatusCode_range resp e h with h1 | h1
  · have key : ∀ e' ∈ [GoError.leaf "client: bad request (400)",
        .leaf "client: unauthorized (401)", .leaf "client: forbidden (403)",
        .leaf "client: not found (404)", .leaf "client: too many requests (429)",
        .leaf "client: service unavailable (503)"],
        e'.Error.data.take 10 ≠ "client: fa".data ∧
        e'.Error.data.take 10 ≠ "client: co".data := by decide
    exact key e h1
  · rw [h1]
    simp only [GoError.Error]
    rw [take_append_lit _ _ _ (by decide)]
    decide

theorem sendMsg_ne_readMsg (v : Verb) (x y : String) : v.sendMsg ++ x ≠ v.readMsg ++ y := by
  cases v
  · exact append_ne_of_take _ _ _ _ 19 (by decide) (by decide) (by decide)
  · exact append_ne_of_take _ _ _ _ 10 (by decide) (by decide) (by decide)
  · exact append_ne_of_take _ _ _ _ 1 (by decide) (by decide) (by decide)
  · exact append_ne_of_take _ _ _ _ 1 (by decide) (by decide) (by decide)

/-- C7: body-read-failure path. When the status is 200, 201 or 204 but reading the body
fails with `r`, each of the four operations returns nil bytes (nothing of what was read)
and an error that unwraps to `r`; its message differs from the message of every error
`handleStatusCode` can return and from the transport-failure error of the same verb. -/
theorem call_read_failure (env : Env) (v : Verb) (url : String)
    (body : List UInt8) (header : List (String × String)) (req : Request) (resp : Response)
    (r : GoError)
    (hreq : builtRequest env v url body header = .ok req)
    (hdo : env.Do req = .ok resp)
    (hst : resp.StatusCode = 200 ∨ resp.StatusCode = 201 ∨ resp.StatusCode = 204)
    (hread : (ReadAll resp).2 = some r) :
    ∃ e, (call env v url body header).bytes = none ∧
      (call env v url body header).err = some e ∧
      e.Unwrap = some r ∧ r.Error.data <:+ e.Error.data ∧
      (∀ (resp' : Response) (e' : GoError), handleStatusCode resp' = some e' →
        e'.Error ≠ e.Error) ∧
      (∀ (env' : Env) (url' : String) (body' : List UInt8)
        (header' : List (String × String)) (req' : Request) (t e' : GoError),
        builtRequest env' v url' body' header' = .ok req' → env'.Do req' = .error t →
        (call env' v url' body' header').err = some e' → e'.Error ≠ e.Error) := by
  refine ⟨Errorf_w v.readMsg r, ?_⟩
  rw [call_eq_perform, perform_ok env v url body header req resp hreq hdo,
    success_handleStatusCode resp hst]
  simp only [ReadAll] at hread
  rw [hread]
  refine ⟨rfl, rfl, rfl, ?_, ?_, ?_⟩
  · simp only [Errorf_w, GoError.Error, String.data_append]
    exact List.suffix_append _ _
  · intro resp' e' he' heq
    have h1 := statusError_take resp' e' he'
    rw [heq] at h1
    simp only [Errorf_w, GoError.Error] at h1
    rcases readMsg_take v r.Error with h2 | h2
    · exact h1.1 h2
    · exact h1.2 h2
  · intro env' url' body' header' req' t e' hreq' hdo' herr heq
    rw [call_eq_perform, perform_do_error env' v url' body' header' req' t hreq' hdo'] at herr
    simp only [Option.some.injEq] at herr
    subst herr
    simp only [Errorf_w, GoError.Error] at heq
    exact sendMsg_ne_readMsg v _ _ heq

theorem call_read_failure_witness :
    ∃ e, (call demoEnv .delete "http://h/cut" [] []).bytes = none ∧
      (call demoEnv .delete "http://h/cut" [] []).err = some e ∧
      e.Unwrap = some (.leaf "unexpected EOF") ∧
      (GoError.leaf "unexpected EOF").Error.data <:+ e.Error.data ∧
      (∀ (resp' : Response) (e' : GoError), handleStatusCode resp' = some e' →
        e'.Error ≠ e.Error) ∧
      (∀ (env' : Env) (url' : String) (body' : List UInt8)
        (header' : List (String × String)) (req' : Request) (t e' : GoError),
        builtRequest env' .delete url' body' header' = .ok req' → env'.Do req' = .error t →
        (call env' .delete url' body' header').err = some e' → e'.Error ≠ e.Error) :=
  call_read_failure demoEnv .delete "http://h/cut" [] []
    ⟨"DELETE", "http://h/cut", [], none⟩ ⟨200, [[111]], some (.leaf "unexpected EOF")⟩
    (.leaf "unexpected EOF") rfl rfl (by decide) rfl

/-- C8: response-body release. Whenever the transport returned a response (success,
classification failure or body-read failure alike) `Close` has run exactly once when the
operation returns; when request construction fails or the transport fails, `Close` has
run zero times. -/
theorem call_close_count (env : Env) (v : Verb) (url : String) (body : List UInt8)
    (header : List (String × String)) :
    (∀ (req : Request) (resp : Response), builtRequest env v url body header = .ok req →
      env.Do req = .ok resp → closeCount (call env v url body header).trace = 1) ∧
    (∀ c : GoError, builtRequest env v url body header = .error c →
      closeCount (call env v url body header).trace = 0) ∧
    (∀ (req : Request) (t : GoError), builtRequest env v url body header = .ok req →
      env.Do req = .error t → closeCount (call env v url body header).trace = 0) := by
  refine ⟨?_, ?_, ?_⟩
  · intro req resp hreq hdo
    rw [call_eq_perform, perform_ok env v url body header req resp hreq hdo]
    cases handleStatusCode resp with
    | some e => simp [closeCount]
    | none =>
      cases resp.failure with
      | some e => simp [closeCount]
      | none => simp [closeCount]
  · intro c hc
    rw [call_eq_perform,
      perform_build_error env v url body header c (builtRequest_error _ _ _ _ _ _ hc)]
    simp [closeCount]
  · intro req t hreq hdo
    rw [call_eq_perform, perform_do_error env v url body header req t hreq hdo]
    simp [closeCount]

theorem call_close_count_witness :
    closeCount (call demoEnv .get "http://h/ok" [] []).trace = 1 ∧
    closeCount (call demoEnv .get "http://h/missing" [] []).trace = 1 ∧
    closeCount (call demoEnv .delete "http://h/cut" [] []).trace = 1 ∧
    closeCount (call demoEnv .post "::bad" [1] []).trace = 0 ∧
    closeCount (call demoEnv .put "http://h/down" [1, 2] []).trace = 0 :=
  ⟨(call_close_count demoEnv .get "http://h/ok" [] []).1
      ⟨"GET", "http://h/ok", [], none⟩ ⟨200, [[111], [107]], none⟩ rfl rfl,
    (call_close_count demoEnv .get "http://h/missing" [] []).1
      ⟨"GET", "http://h/missing", [], none⟩ ⟨404, [[120]], none⟩ rfl rfl,
    (call_close_count demoEnv .delete "http://h/cut" [] []).1
      ⟨"DELETE", "http://h/cut", [], none⟩ ⟨200, [[111]], some (.leaf "unexpected EOF")⟩
      rfl rfl,
    (call_close_count demoEnv .post "::bad" [1] []).2.1
      (Errorf_w "client: could not create POST request: "
        (.leaf "parse ::bad: missing protocol scheme")) rfl,
    (call_close_count demoEnv .put "http://h/down" [1, 2] []).2.2
      ⟨"PUT", "http://h/down", [], some [1, 2]⟩ (.leaf "dial tcp: connection refused")
      rfl rfl⟩

theorem method_infix_buildMsg (v : Verb) : v.method.data <:+: v.buildMsg.data := by
  cases v <;> decide

theorem self_mem_chain (e : GoError) : e ∈ e.chain := by
  cases e <;> simp [GoError.chain]

theorem buildRequest_of_parse_error (env : Env) (v : Verb) (url : String)
    (body : List UInt8) (header : List (String × String)) (c0 : GoError)
    (hp : env.parseURL url = some c0) :
    buildRequest env v url body header = .error (Errorf_w v.buildMsg c0) := by
  cases v <;>
  simp only [buildRequest, buildGetRequest, buildPostRequest, buildPutRequest,
    buildDeleteRequest, NewRequest, hp, Verb.buildMsg]

/-- C10: request-construction-failure path. When the URL does not parse, with parser
error `c0`, the `build*Request` helper of each of the four operations fails with an
error `c` wrapping `c0`, and the operation returns at once nil bytes and an error `e`
that unwraps to `c`: both `c` and `c0` are in the chain of `e`, the message of `e` ends
with the message of `c` and with the message of `c0` and names the HTTP method of the
verb, and the transport is never invoked. -/
theorem call_construction_failure (env : Env) (v : Verb) (url : String)
    (body : List UInt8) (header : List (String × String)) (c0 : GoError)
    (hp : env.parseURL url = some c0) :
    ∃ c e, buildRequest env v url body header = .error c ∧
      (∀ c', buildRequest env v url body header = .error c' → c' = c) ∧
      c.Unwrap = some c0 ∧
      (call env v url body header).bytes = none ∧
      (call env v url body header).err = some e ∧
      e.Unwrap = some c ∧ c.Error.data <:+ e.Error.data ∧
      c0.Error.data <:+ e.Error.data ∧
      c ∈ e.chain ∧ c0 ∈ e.chain ∧
      Contains e.Error v.method ∧
      (call env v url body header).trace = [] ∧
      sent (call env v url body header).trace = [] := by
  have hc := buildRequest_of_parse_error env v url body header c0 hp
  refine ⟨Errorf_w v.buildMsg c0, Errorf_w v.createMsg (Errorf_w v.buildMsg c0), hc, ?_, rfl,
    ?_⟩
  · intro c' hc'
    rw [hc] at hc'
    cases hc'
    rfl
  rw [call_eq_perform, perform_build_error env v url body header _ hc]
  refine ⟨rfl, rfl, rfl, ?_, ?_, ?_, ?_, ?_, rfl, rfl⟩
  · simp only [Errorf_w, GoError.Error, String.data_append]
    exact List.suffix_append _ _
  · simp only [Errorf_w, GoError.Error, String.data_append]
    exact (List.suffix_append _ _).trans (List.suffix_append _ _)
  · exact List.mem_cons_of_mem _ (self_mem_chain _)
  · simp only [Errorf_w, GoError.chain, List.mem_cons]
    exact Or.inr (Or.inr (self_mem_chain c0))
  · simp only [Contains, Errorf_w, GoError.Error, String.data_append]
    exact ((method_infix_buildMsg v).trans (List.prefix_append _ _).isInfix).trans
      (List.suffix_append _ _).isInfix

theorem call_construction_failure_witness :
    (∃ c e, buildRequest demoEnv .put "::bad" [1] [("a", "b")] = .error c ∧
      (∀ c', buildRequest demoEnv .put "::bad" [1] [("a", "b")] = .error c' → c' = c) ∧
      c.Unwrap = some (.leaf "parse ::bad: missing protocol scheme") ∧
      (call demoEnv .put "::bad" [1] [("a", "b")]).bytes = none ∧
      (call demoEnv .put "::bad" [1] [("a", "b")]).err = some e ∧
      e.Unwrap = some c ∧ c.Error.data <:+ e.Error.data ∧
      (GoError.leaf "parse ::bad: missing protocol scheme").Error.data <:+ e.Error.data ∧
      c ∈ e.chain ∧ GoError.leaf "parse ::bad: missing protocol scheme" ∈ e.chain ∧
      Contains e.Error Verb.put.method ∧
      (call demoEnv .put "::bad" [1] [("a", "b")]).trace = [] ∧
      sent (call demoEnv .put "::bad" [1] [("a", "b")]).trace = []) ∧
    call demoEnv .put "::bad" [1] [("a", "b")] =
      ⟨none,
        some (.wrap ("failed to create PUT request: client: could not create PUT request: " ++
            "parse ::bad: missing protocol scheme")
          (.wrap "client: could not create PUT request: parse ::bad: missing protocol scheme"
            (.leaf "parse ::bad: missing protocol scheme"))),
        []⟩ :=
  ⟨call_construction_failure demoEnv .put "::bad" [1] [("a", "b")]
      (.leaf "parse ::bad: missing protocol scheme") rfl,
    by decide⟩

/-! ## Header application -/

theorem lookup_filter_ne (h : Header) (k x : String) :
    Header.lookup (h.filter (fun e => decide (e.1 ≠ k))) x =
      if x = k then none else Header.lookup h x := by
  induction h with
  | nil => simp [Header.lookup]
  | cons a t ih =>
    obtain ⟨ka, va⟩ := a
    by_cases hk : ka = k
    · subst hk
      simp only [List.filter, ne_eq, not_true_eq_false, decide_False, Header.lookup]
      rw [ih]
      by_cases hx : x = ka
      · simp [hx]
      · have : ¬ ka = x := fun h => hx h.symm
        simp [hx, this]
    · simp only [List.filter, ne_eq, hk, not_false_eq_true, decide_True, Header.lookup]
      rw [ih]
      by_cases hx : ka = x
      · have : ¬ x = k := fun h => hk (hx.trans h)
        simp [hx, this]
      · simp [hx]

theorem lookup_Set (canon : String → String) (h : Header) (key value x : String) :
    Header.lookup (Header.Set canon h key value) x =
      if canon key = x then some [value] else Header.lookup h x := by
  unfold Header.Set
  simp only [Header.lookup]
  by_cases hx : canon key = x
  · simp [hx]
  · have : ¬ x = canon key := fun h => hx h.symm
    rw [if_neg hx, if_neg hx, lookup_filter_ne, if_neg this]

theorem mem_keys_Set (canon : String → String) (h : Header) (key value k : String)
    (hk : k ∈ Header.keys (Header.Set canon h key value)) :
    k = canon key ∨ k ∈ Header.keys h := by
  simp only [Header.keys, Header.Set, List.map_cons, List.mem_cons, List.mem_map,
    List.mem_filter] at hk
  rcases hk with hk | ⟨a, ⟨ha, -⟩, rfl⟩
  · exact Or.inl hk
  · exact Or.inr (List.mem_map_of_mem _ ha)

theorem setHeaders_fields (env : Env) (n : Nat) (req : Request)
    (header : List (String × String)) :
    (setHeaders env n req header).Header = setAll env.canon req.Header (env.range n header) ∧
    (setHeaders env n req header).Body = req.Body := by
  unfold setHeaders setAll
  generalize env.range n header = es
  induction es generalizing req with
  | nil => exact ⟨rfl, rfl⟩
  | cons a t ih =>
    simp only [List.foldl_cons]
    exact ih _

theorem setAll_lookup_not_mem (canon : String → String) (es : List (String × String))
    (hcanon : ∀ kv ∈ es, canon kv.1 = kv.1) :
    ∀ (h : Header) (x : String), x ∉ es.map Prod.fst →
      Header.lookup (setAll canon h es) x = Header.lookup h x := by
  induction es with
  | nil => intro h x _; rfl
  | cons a t ih =>
    intro h x hx
    simp only [List.map_cons, List.mem_cons, not_or] at hx
    simp only [setAll, List.foldl_cons]
    have h1 := ih (fun kv hkv => hcanon kv (List.mem_cons_of_mem _ hkv))
      (Header.Set canon h a.1 a.2) x hx.2
    simp only [setAll] at h1
    rw [h1, lookup_Set, hcanon a (List.mem_cons_self _ _)]
    have : ¬ a.1 = x := fun h => hx.1 h.symm
    simp [this]

theorem setAll_lookup_mem (canon : String → String) (es : List (String × String))
    (hcanon : ∀ kv ∈ es, canon kv.1 = kv.1) (hnodup : (es.map Prod.fst).Nodup) :
    ∀ (h : Header), ∀ kv ∈ es, Header.lookup (setAll canon h es) kv.1 = some [kv.2] := by
  induction es with
  | nil => intro h kv hkv; cases hkv
  | cons a t ih =>
    intro h kv hkv
    simp only [List.map_cons, List.nodup_cons] at hnodup
    have hc' : ∀ kv ∈ t, canon kv.1 = kv.1 :=
      fun kv hkv => hcanon kv (List.mem_cons_of_mem _ hkv)
    rcases List.mem_cons.1 hkv with rfl | hkv
    · have h1 := setAll_lookup_not_mem canon t hc' (Header.Set canon h kv.1 kv.2) kv.1
        hnodup.1
      simp only [setAll, List.foldl_cons] at h1 ⊢
      rw [h1, lookup_Set, hcanon kv (List.mem_cons_self _ _)]
      simp
    · have h1 := ih hc' hnodup.2 (Header.Set canon h a.1 a.2) kv hkv
      simp only [setAll, List.foldl_cons] at h1 ⊢
      exact h1

theorem setAll_keys (canon : String → String) (es : List (String × String))
    (hcanon : ∀ kv ∈ es, canon kv.1 = kv.1) :
    ∀ (h : Header), ∀ k ∈ Header.keys (setAll canon h es),
      k ∈ Header.keys h ∨ k ∈ es.map Prod.fst := by
  induction es with
  | nil => intro h k hk; exact Or.inl hk
  | cons a t ih =>
    intro h k hk
    simp only [setAll, List.foldl_cons] at hk
    have h1 := ih (fun kv hkv => hcanon kv (List.mem_cons_of_mem _ hkv))
      (Header.Set canon h a.1 a.2) k hk
    rcases h1 with h1 | h1
    · rcases mem_keys_Set canon h a.1 a.2 k h1 with h2 | h2
      · right
        rw [h2, hcanon a (List.mem_cons_self _ _)]
        simp
      · exact Or.inl h2
    · right
      simp only [List.map_cons, List.mem_cons]
      exact Or.inr h1

theorem setAll_reproduces (canon : String → String) (header es : List (String × String))
    (hperm : es.Perm header) (hkeys : (header.map Prod.fst).Nodup)
    (hcanon : ∀ kv ∈ header, canon kv.1 = kv.1) (h : Header)
    (hh : ∀ k ∈ Header.keys h, k ∈ header.map Prod.fst) :
    Reproduces (setAll canon h es) header := by
  have hc' : ∀ kv ∈ es, canon kv.1 = kv.1 := fun kv hkv => hcanon kv (hperm.mem_iff.1 hkv)
  have hn' : (es.map Prod.fst).Nodup := (hperm.map Prod.fst).nodup_iff.2 hkeys
  constructor
  · intro kv hkv
    exact setAll_lookup_mem canon es hc' hn' h kv (hperm.mem_iff.2 hkv)
  · intro k hk
    rcases setAll_keys canon es hc' h k hk with h1 | h1
    · exact hh k h1
    · exact (hperm.map Prod.fst).mem_iff.1 h1

theorem setAll_canon (canon : String → String) (es : List (String × String)) :
    ∀ h : Header, setAll canon h es = setAll id h (canonHeader canon es) := by
  induction es with
  | nil => intro h; rfl
  | cons a t ih =>
    intro h
    simp only [setAll, canonHeader, List.map_cons, List.foldl_cons] at ih ⊢
    rw [ih]
    rfl

theorem setAll_same (header es : List (String × String))
    (hperm : es.Perm header) (hkeys : (header.map Prod.fst).Nodup) (h : Header)
    (hh : Reproduces h header) (k : String) :
    Header.lookup (setAll id h es) k = Header.lookup h k := by
  have hn : (es.map Prod.fst).Nodup := (hperm.map Prod.fst).nodup_iff.2 hkeys
  by_cases hk : k ∈ es.map Prod.fst
  · obtain ⟨kv, hkv, rfl⟩ := List.mem_map.1 hk
    rw [setAll_lookup_mem id es (fun _ _ => rfl) hn h kv hkv, hh.1 kv (hperm.mem_iff.1 hkv)]
  · exact setAll_lookup_not_mem id es (fun _ _ => rfl) h k hk

theorem buildRequest_ok_nobody (env : Env) (v : Verb) (url : String)
    (header : List (String × String)) (req1 : Request) (hv : v = .get ∨ v = .delete)
    (h : buildRequest env v url [] header = .ok req1) :
    req1 = setHeaders env 0 ⟨v.method, url, [], none⟩ header := by
  rcases hv with rfl | rfl <;>
  · simp only [buildRequest, buildGetRequest, buildDeleteRequest, NewRequest] at h
    cases hp : env.parseURL url with
    | some c => rw [hp] at h; cases h
    | none =>
      rw [hp] at h
      cases h
      rfl

theorem buildRequest_ok_of_parse (env : Env) (v : Verb) (url : String) (body : List UInt8)
    (header : List (String × String)) (hp : env.parseURL url = none) :
    ∃ req1, buildRequest env v url body header = .ok req1 := by
  cases v <;>
  · simp only [buildRequest, buildGetRequest, buildPostRequest, buildPutRequest,
      buildDeleteRequest, NewRequest, hp]
    exact ⟨_, rfl⟩

theorem sent_perform (env : Env) (v : Verb) (url : String) (body : List UInt8)
    (header : List (String × String)) (req1 : Request)
    (h : buildRequest env v url body header = .ok req1) :
    sent (perform env v url body header).trace = [setHeaders env 1 req1 header] := by
  unfold perform
  rw [h]
  simp only
  cases env.Do (setHeaders env 1 req1 header) with
  | error t => rfl
  | ok resp =>
    simp only
    cases handleStatusCode resp with
    | some e => rfl
    | none =>
      simp only
      cases resp.failure with
      | some e => rfl
      | none => rfl

/-- C9, as stated, fails: `Header.Set` stores each entry under the canonical form of its
name. A `Get` with the single header `content-type` sends a request whose only key is
`Content-Type`, and a `Delete` with the two names `x-a` and `X-A` sends a request with
the single key `X-A`; neither header set reproduces the supplied mapping. -/
theorem request_not_faithful :
    ¬ RequestFaithful demoEnv .get "http://h/ok" [("content-type", "text/plain")] ∧
    ¬ RequestFaithful demoEnv .delete "http://h/ok" [("x-a", "1"), ("X-A", "2")] := by
  constructor
  · intro h
    have h1 := (h ⟨"GET", "http://h/ok", [("Content-Type", ["text/plain"])], none⟩ rfl).2.2.1
    revert h1
    decide
  · intro h
    have h1 := (h ⟨"DELETE", "http://h/ok", [("X-A", ["2"])], none⟩ rfl).2.2.1
    revert h1
    decide

/-- C9, amended: for a `Get` or `Delete` call whose header names have pairwise distinct
canonical forms, the request handed to the transport carries no body and its header set
reproduces the supplied mapping with every name in canonical form: those keys, each with
its supplied value as the single value, and no other key, after the first header pass and
after the second, which changes nothing. When every supplied name is already canonical
the supplied mapping is reproduced exactly. -/
theorem get_delete_request_canonical (env : Env) (v : Verb) (url : String)
    (header : List (String × String)) (hv : v = .get ∨ v = .delete)
    (hrange : ∀ n, (env.range n header).Perm header)
    (hkeys : ((canonHeader env.canon header).map Prod.fst).Nodup) :
    RequestCarries env v url header (canonHeader env.canon header) ∧
    ((∀ kv ∈ header, env.canon kv.1 = kv.1) → RequestFaithful env v url header) ∧
    (env.parseURL url = none → ∃ req1, buildRequest env v url [] header = .ok req1) := by
  have main : RequestCarries env v url header (canonHeader env.canon header) := by
    intro req1 h1
    have hreq1 := buildRequest_ok_nobody env v url header req1 hv h1
    have hp0 : (canonHeader env.canon (env.range 0 header)).Perm
        (canonHeader env.canon header) := (hrange 0).map _
    have hp1 : (canonHeader env.canon (env.range 1 header)).Perm
        (canonHeader env.canon header) := (hrange 1).map _
    have hH1 : req1.Header = setAll id [] (canonHeader env.canon (env.range 0 header)) := by
      rw [hreq1, (setHeaders_fields env 0 _ header).1, setAll_canon]
    have hB1 : req1.Body = none := by
      rw [hreq1, (setHeaders_fields env 0 _ header).2]
    have hR1 : Reproduces req1.Header (canonHeader env.canon header) := by
      rw [hH1]
      exact setAll_reproduces id _ _ hp0 hkeys (fun _ _ => rfl) []
        (fun k hk => by cases hk)
    have hH2 : (setHeaders env 1 req1 header).Header =
        setAll id req1.Header (canonHeader env.canon (env.range 1 header)) := by
      rw [(setHeaders_fields env 1 req1 header).1, setAll_canon]
    refine ⟨?_, ?_, hR1, ?_, ?_⟩
    · rw [call_eq_perform]
      exact sent_perform env v url [] header req1 h1
    · rw [(setHeaders_fields env 1 req1 header).2, hB1]
    · rw [hH2]
      exact setAll_reproduces id _ _ hp1 hkeys (fun _ _ => rfl) req1.Header hR1.2
    · intro k
      rw [hH2]
      exact setAll_same _ _ hp1 hkeys req1.Header hR1 k
  refine ⟨main, ?_, fun hp => buildRequest_ok_of_parse env v url [] header hp⟩
  intro hcanon
  have hEq : canonHeader env.canon header = header := by
    unfold canonHeader
    conv_rhs => rw [← List.map_id header]
    apply List.map_congr_left
    intro kv hkv
    rw [hcanon kv hkv]
    rfl
  unfold RequestFaithful
  rw [hEq] at main
  exact main

theorem get_delete_request_canonical_witness :
    sent (call demoEnv .get "http://h/ok" []
      [("content-type", "text/plain"), ("X-Api-Key", "k")]).trace =
      [⟨"GET", "http://h/ok", [("X-Api-Key", ["k"]), ("Content-Type", ["text/plain"])],
        none⟩] ∧
    Reproduces [("X-Api-Key", ["k"]), ("Content-Type", ["text/plain"])]
      [("Content-Type", "text/plain"), ("X-Api-Key", "k")] ∧
    RequestFaithful demoEnv .delete "http://h/ok"
      [("Content-Type", "text/plain"), ("X-Api-Key", "k")] :=
  ⟨((get_delete_request_canonical demoEnv .get "http://h/ok"
      [("content-type", "text/plain"), ("X-Api-Key", "k")] (Or.inl rfl)
      (fun _ => List.Perm.refl _) (by decide)).1
      ⟨"GET", "http://h/ok", [("X-Api-Key", ["k"]), ("Content-Type", ["text/plain"])],
        none⟩ rfl).1,
    ((get_delete_request_canonical demoEnv .get "http://h/ok"
      [("content-type", "text/plain"), ("X-Api-Key", "k")] (Or.inl rfl)
      (fun _ => List.Perm.refl _) (by decide)).1
      ⟨"GET", "http://h/ok", [("X-Api-Key", ["k"]), ("Content-Type", ["text/plain"])],
        none⟩ rfl).2.2.2.1,
    (get_delete_request_canonical demoEnv .delete "http://h/ok"
      [("Content-Type", "text/plain"), ("X-Api-Key", "k")] (Or.inr rfl)
      (fun _ => List.Perm.refl _) (by decide)).2.1 (by decide)⟩

end HttpWrapper
